import Mathlib

/-!
Verification of the miniwdl CLI front-end (src/WDL/CLI.py): a shallow
embedding of the input-resolution and run-classification pipeline, with
theorems settling the specified claims about it.

Conventions of the embedding:
- Python exceptions become an `Except Err` result; each raise site in the
  source corresponds to one constructor of `Err` carrying the data that the
  source interpolates into its message string.
- Python `None`-or-string values become `Option String`; Python truthiness
  of such a value is `Option.isSome` (run directories and names are
  non-empty strings in the source).
- External collaborators that live outside src/ (the document loader, the
  typechecker types module, Value.from_json, json.loads, the filesystem,
  and the downloadable predicate) are abstracted as explicit function
  parameters bundled in `FS` and `Ctx`.
-/

namespace MiniwdlCLI

/-- Python `a or b` on optional strings: the left operand when truthy. -/
def pyOr (a b : Option String) : Option String :=
  match a with
  | some r => some r
  | none => b

/-- Python truthiness of an optional string (`if task_name:`). -/
def pyTruthy (s : Option String) : Bool :=
  match s with
  | some t => t ≠ ""
  | none => false

/-- Validity of a Python base-10 digit group with underscore separators:
nonempty, starts and ends with a digit, no two adjacent underscores, and
every character is a digit or an underscore. -/
def digitGroupValid (cs : List Char) : Bool :=
  cs ≠ [] &&
  (cs.headD '_').isDigit &&
  (cs.getLastD '_').isDigit &&
  cs.all (fun c => c.isDigit || c = '_') &&
  (cs.zip (cs.drop 1)).all (fun p => !(p.1 = '_' && p.2 = '_'))

/-- Numeric value of a digit group, ignoring underscores. -/
def digitGroupVal (cs : List Char) : Nat :=
  (cs.filter Char.isDigit).foldl (fun acc c => acc * 10 + (c.toNat - '0'.toNat)) 0

/-- Parse a digit group, as accepted inside Python numeric literals. -/
def digitGroup? (cs : List Char) : Option Nat :=
  if digitGroupValid cs then some (digitGroupVal cs) else none

/-- Strip leading and trailing whitespace, as Python `int`/`float` do. -/
def stripWs (cs : List Char) : List Char :=
  ((cs.dropWhile Char.isWhitespace).reverse.dropWhile Char.isWhitespace).reverse

/-- Split off an optional leading sign; returns (negative, rest). -/
def takeSign : List Char → Bool × List Char
  | '+' :: rest => (false, rest)
  | '-' :: rest => (true, rest)
  | cs => (false, cs)

/-- Model of the Python builtin `int(s)` for base-10 strings: `none` models
a raised ValueError. -/
def pyInt? (s : String) : Option Int :=
  let cs := stripWs s.toList
  let (neg, ds) := takeSign cs
  match digitGroup? ds with
  | some n => some (if neg then -(n : Int) else (n : Int))
  | none => none

/-- Result of the Python builtin `float(s)`: a finite decimal is kept
symbolically as mantissa times ten to the exponent. -/
inductive PFloat where
  | finite (mant : Int) (exp : Int)
  | infinite (neg : Bool)
  | nan
  deriving Repr, DecidableEq

/-- Parse the decimal part of a Python float literal (no inf/nan), already
sign-split: digits, optional fraction, optional exponent. -/
def pyFloatDecimal? (neg : Bool) (cs : List Char) : Option PFloat :=
  let (mantCs, expCs) :=
    match cs.splitOnP (fun c => c = 'e' || c = 'E') with
    | [m] => (m, none)
    | [m, e] => (m, some e)
    | _ => ([], some [])  -- two or more exponent markers: invalid
  let (intCs, fracCs) :=
    match mantCs.splitOnP (fun c => c = '.') with
    | [i] => (i, none)
    | [i, f] => (i, some f)
    | _ => ([], some ['_'])  -- two or more dots: invalid
  let intOk := intCs = [] || digitGroupValid intCs
  let fracOk := (match fracCs with | none => true | some [] => true | some f => digitGroupValid f)
  let haveDigit := intCs ≠ [] || (match fracCs with | some (_ :: _) => true | _ => false)
  if intOk && fracOk && haveDigit then
    let fracDigits := (match fracCs with | some f => f.filter Char.isDigit | none => [])
    let mant0 : Nat := digitGroupVal intCs * 10 ^ fracDigits.length + digitGroupVal fracDigits
    let mant : Int := if neg then -(mant0 : Int) else (mant0 : Int)
    match expCs with
    | none => some (.finite mant (-(fracDigits.length : Int)))
    | some ecs =>
      let (eneg, eds) := takeSign ecs
      match digitGroup? eds with
      | some e =>
        let ev : Int := if eneg then -(e : Int) else (e : Int)
        some (.finite mant (ev - (fracDigits.length : Int)))
      | none => none
  else none

/-- Model of the Python builtin `float(s)`: `none` models a raised
ValueError. -/
def pyFloat? (s : String) : Option PFloat :=
  let cs := stripWs s.toList
  let (neg, body) := takeSign cs
  let low := body.map Char.toLower
  if low = "inf".toList || low = "infinity".toList then some (.infinite neg)
  else if low = "nan".toList then some .nan
  else pyFloatDecimal? neg body

/-- Abstract JSON value, standing for the result of Python `json.loads`
(external standard library). -/
inductive JsonVal where
  | null
  | bool (b : Bool)
  | num (mant : Int) (exp : Int)
  | str (s : String)
  | arr (xs : List JsonVal)
  | obj (kvs : List (String × JsonVal))

/-- WDL declared types as used by the CLI logic (mirrors WDL.Type classes,
tracking exactly the attributes CLI.py consults: the class of the type, its
`optional` quantifier, and for arrays the item type and `nonempty` flag).
Inner types of pairs, maps and structs are only relevant to the external
Value.from_json and are not consulted by CLI.py itself. -/
inductive WType where
  | string (optional : Bool)
  | int (optional : Bool)
  | float (optional : Bool)
  | boolean (optional : Bool)
  | file (optional : Bool)
  | directory (optional : Bool)
  | array (item : WType) (optional : Bool) (nonempty : Bool)
  | pair (optional : Bool)
  | map (optional : Bool)
  | structInstance (optional : Bool)
  | any (optional : Bool)
  deriving DecidableEq, Repr

/-- The `optional` attribute common to all WDL.Type classes. -/
def WType.optional : WType → Bool
  | .string o | .int o | .float o | .boolean o | .file o | .directory o
  | .array _ o _ | .pair o | .map o | .structInstance o | .any o => o

/-- WDL runtime values as constructed by the CLI logic (mirrors WDL.Value
classes). `compound` stands for a value built by the external
Value.from_json for pair/map/struct types. -/
inductive WValue where
  | str (s : String)
  | int (n : Int)
  | float (f : PFloat)
  | boolean (b : Bool)
  | file (p : String)
  | dir (p : String)
  | array (item : WType) (items : List WValue)
  | null
  | compound (ty : WType) (j : JsonVal)

/-- The `type` attribute of a WDL.Value object, as far as CLI.py consults
it (only inside the duplicate-array assertion). Modelled from the spec:
WDL.Value is an external collaborator; each value class reports its own
type, a null value reports an optional Any. -/
def WValue.typeOf : WValue → WType
  | .str _ => .string false
  | .int _ => .int false
  | .float _ => .float false
  | .boolean _ => .boolean false
  | .file _ => .file false
  | .dir _ => .directory false
  | .array it _ => .array it false false
  | .null => .any true
  | .compound ty _ => ty

/-- Errors raised by the embedded code. Each constructor corresponds to one
raise site in CLI.py (an `Error.InputError` unless noted) and carries the
data interpolated into that message. `valueError` models a Python
ValueError escaping from the builtins `int`/`float`; `assertionError`
models a failed `assert`. -/
inductive Err where
  | noSuchTask (name : String)
  | multipleTasks
  | emptyDocument
  | noSuchInput (target : String) (name : String)
  | cannotEmptyNonempty (ty : WType) (name : String)
  | cannotEmpty (ty : WType) (name : String) (hintNone : Bool)
  | noneNonOptional (ty : WType) (name : String)
  | invalidNameValuePair (tok : String)
  | nonArrayDuplicated (name : String)
  | missingRequired (target : String) (names : List String)
  | booleanExpected (sval : String)
  | invalidJson (ty : WType)
  | noCliSupport (ty : WType)
  | fileNotFound (directory : Bool) (path : String)
  | outsideRoot (root : String) (path : String)
  | unusableSymlink (path : String)
  | fromJsonErr (msg : String)
  | valueError (sval : String)
  | assertionError
  deriving DecidableEq, Repr

/-- Discriminates the `Error.InputError` raise sites from the
ValueError/AssertionError escapes (which the runner re-raises unrecovered
instead of reporting and exiting with status 2). -/
def Err.isInputError : Err → Bool
  | .valueError _ => false
  | .assertionError => false
  | _ => true

/-- An input declaration of the target (name and declared type), as found
in the `available_inputs` / `required_inputs` environments supplied by the
external typechecker. -/
structure Decl where
  name : String
  ty : WType

/-- An executable target (workflow or task): its name and its input
declaration environments, as the external typechecker provides them. -/
structure Exe where
  name : String
  availableInputs : List Decl
  requiredInputs : List Decl

/-- A loaded WDL document, as far as target resolution consults it: an
optional workflow and the list of tasks. -/
structure WDoc where
  workflow : Option Exe
  tasks : List Exe

/-- A value environment: an ordered, name-unique mapping from input name to
value (WDL.Env.Bindings). -/
def WEnv : Type := List (String × WValue)

/-- Lookup of a bound value (`Env.Bindings.get`, returning None when the
name is absent). -/
def envGet (env : WEnv) (name : String) : Option WValue :=
  match env.find? (fun p => p.1 = name) with
  | some p => some p.2
  | none => none

/-- Bind a name to a value; a binding replaces any existing binding for the
same name (`Env.Bindings.bind`). -/
def envBind (env : WEnv) (name : String) (v : WValue) : WEnv :=
  (name, v) :: env.filter (fun p => p.1 ≠ name)

/-- Replace the value of an existing binding in place, keeping its
position (models the in-place `existing.value.extend(...)` mutation). -/
def envUpdate (env : WEnv) (name : String) (v : WValue) : WEnv :=
  env.map (fun p => if p.1 = name then (name, v) else p)

/-- The filesystem operations CLI.py performs, abstracted as pure
predicates over path strings (os.path and os.walk are external): `walkFiles
d` lists the file paths yielded by `os.walk(d)` already joined with their
directories, and `reallyWithin` is the external helper
`path_really_within` imported from the runtime package. -/
structure FS where
  isfile : String → Bool
  isdir : String → Bool
  abspath : String → String
  expanduser : String → String
  walkFiles : String → List String
  islink : String → Bool
  pathExists : String → Bool
  readlink : String → String
  isabs : String → Bool
  reallyWithin : String → String → Bool

/-- Context bundling the external collaborators consumed by input
coercion: the filesystem, the pluggable downloadable predicate, the
configured root, Python json.loads (none models a JSONDecodeError), the
external WDL.Value.from_json, and the external Type.coerces check. -/
structure Ctx where
  fs : FS
  downloadable : Option (String → Bool → Bool)
  root : String
  jsonLoads : String → Option JsonVal
  fromJson : WType → JsonVal → Except Err WValue
  coerces : WType → WType → Bool

/-- Embeds `validate_input_path` (CLI.py lines 1459-1495): accept a
downloadable URI unchanged; otherwise require local existence as the right
kind, absolutify, require containment under the configured root, and for
directories reject any walked file symlink that is broken, absolute, or
resolves outside the directory subtree. -/
def validate_input_path (fs : FS) (path : String) (directory : Bool)
    (downloadable : Option (String → Bool → Bool)) (root : String) :
    Except Err String :=
  if (match downloadable with | some d => d path directory | none => false) then
    .ok path
  else if !((directory && fs.isdir path) || (!directory && fs.isfile path)) then
    .error (.fileNotFound directory path)
  else
    let path := fs.abspath path
    if !(fs.reallyWithin path root) then
      .error (.outsideRoot root path)
    else if directory &&
        (fs.walkFiles path).any (fun fn =>
          fs.islink fn &&
          (!fs.pathExists fn || fs.isabs (fs.readlink fn) || !(fs.reallyWithin fn path))) then
      .error (.unusableSymlink path)
    else
      .ok path

/-- Scalar-like array item types admitting the bare-string wrap (the
isinstance tuple at CLI.py line 1424). -/
def scalarLike : WType → Bool
  | .string _ | .file _ | .directory _ | .int _ | .float _ => true
  | _ => false

/-- Embeds `runner_input_value` (CLI.py lines 1399-1457): coerce one
command-line string to a typed value according to the declared type. -/
def runner_input_value (ctx : Ctx) (s_value : String) (ty : WType) :
    Except Err WValue :=
  match ty with
  | .string _ => .ok (.str s_value)
  | .file _ =>
    match validate_input_path ctx.fs (ctx.fs.expanduser s_value) false ctx.downloadable ctx.root with
    | .ok p => .ok (.file p)
    | .error e => .error e
  | .directory _ =>
    match validate_input_path ctx.fs (ctx.fs.expanduser s_value) true ctx.downloadable ctx.root with
    | .ok p => .ok (.dir p)
    | .error e => .error e
  | .boolean _ =>
    if s_value = "true" then .ok (.boolean true)
    else if s_value = "false" then .ok (.boolean false)
    else .error (.booleanExpected s_value)
  | .int _ =>
    match pyInt? s_value with
    | some n => .ok (.int n)
    | none => .error (.valueError s_value)
  | .float _ =>
    match pyFloat? s_value with
    | some f => .ok (.float f)
    | none => .error (.valueError s_value)
  | .array it opt ne =>
    if scalarLike it then
      match runner_input_value ctx s_value it with
      | .ok v => .ok (.array it [v])
      | .error e => .error e
    else .error (.noCliSupport (.array it opt ne))
  | .pair o =>
    (match ctx.jsonLoads s_value with
     | some j => ctx.fromJson (.pair o) j
     | none => .error (.invalidJson (.pair o)))
  | .map o =>
    (match ctx.jsonLoads s_value with
     | some j => ctx.fromJson (.map o) j
     | none => .error (.invalidJson (.map o)))
  | .structInstance o =>
    (match ctx.jsonLoads s_value with
     | some j => ctx.fromJson (.structInstance o) j
     | none => .error (.invalidJson (.structInstance o)))
  | .any _ =>
    match pyInt? s_value with
    | some n => .ok (.int n)
    | none =>
      match pyFloat? s_value with
      | some f => .ok (.float f)
      | none => .ok (.str s_value)

/-- Embeds `runner_exe` (CLI.py lines 1251-1275): resolve the workflow or
task to run, in the strict priority order of the source. The `task_name`
test mirrors Python truthiness (`if task_name:`), so an empty string
counts as absent. -/
def runner_exe (doc : WDoc) (task_name : Option String) : Except Err Exe :=
  if pyTruthy task_name then
    match doc.tasks.find? (fun t => task_name = some t.name) with
    | some t => .ok t
    | none => .error (.noSuchTask (task_name.getD ""))
  else
    match doc.workflow with
    | some w => .ok w
    | none =>
      match doc.tasks with
      | [t] => .ok t
      | [] => .error .emptyDocument
      | _ => .error .multipleTasks

/-- Embeds one iteration of the `--empty` loop of `runner_input` (CLI.py
lines 1150-1169): bind an explicit empty array or empty string, or fail. -/
def applyEmptyStep (target : Exe) (input_env : WEnv) (empty_name : String) :
    Except Err WEnv :=
  match target.availableInputs.find? (fun d => d.name = empty_name) with
  | none => .error (.noSuchInput target.name empty_name)
  | some decl =>
    match decl.ty with
    | .array it o ne =>
      if ne then .error (.cannotEmptyNonempty (.array it o ne) decl.name)
      else .ok (envBind input_env empty_name (.array it []))
    | .string _ => .ok (envBind input_env empty_name (.str ""))
    | ty => .error (.cannotEmpty ty decl.name ty.optional)

/-- The `--empty` loop over all names. -/
def applyEmpty (target : Exe) (input_env : WEnv) (names : List String) :
    Except Err WEnv :=
  names.foldlM (applyEmptyStep target) input_env

/-- Embeds one iteration of the `--none` loop of `runner_input` (CLI.py
lines 1171-1182): bind an explicit null, or fail if the declared type is
not optional. -/
def applyNoneStep (target : Exe) (input_env : WEnv) (none_name : String) :
    Except Err WEnv :=
  match target.availableInputs.find? (fun d => d.name = none_name) with
  | none => .error (.noSuchInput target.name none_name)
  | some decl =>
    if !decl.ty.optional then .error (.noneNonOptional decl.ty decl.name)
    else .ok (envBind input_env none_name .null)

/-- The `--none` loop over all names. -/
def applyNone (target : Exe) (input_env : WEnv) (names : List String) :
    Except Err WEnv :=
  names.foldlM (applyNoneStep target) input_env

/-- True when a token has length above one and its first `=` is its last
character (`inputs[i].find("=") == len_i - 1`). -/
def endsAtEq (t : String) : Bool :=
  t.length > 1 && t.toList.indexOf '=' = t.length - 1

/-- Embeds the token-reassembly loop of `runner_input` (CLI.py lines
1184-1192): a token ending exactly at its `=` sign absorbs the following
token, and scanning resumes after the merged pair. -/
def mergeEqTokens : List String → List String
  | [] => []
  | [t] => [t]
  | t :: u :: rest =>
    if endsAtEq t then (t ++ u) :: mergeEqTokens rest
    else t :: mergeEqTokens (u :: rest)

/-- Embeds the `name=value` parse and validity test of the CLI-input loop
(CLI.py lines 1196-1201): split at the first `=`; the token must be
nonempty with an alphabetic first character, contain an `=`, and have a
nonempty name part. -/
def parseNameValue (one_input : String) : Option (String × String) :=
  let cs := one_input.toList
  let nameCs := cs.takeWhile (fun c => c ≠ '=')
  match cs.dropWhile (fun c => c ≠ '=') with
  | '=' :: valCs =>
    if one_input ≠ "" && (cs.headD '=').isAlpha && nameCs ≠ [] then
      some (String.mk nameCs, String.mk valCs)
    else none
  | _ => none

/-- Embeds the declaration lookup of the CLI-input loop (CLI.py lines
1203-1216), including the `runtime` dotted-segment remap onto a synthetic
`_runtime` input. -/
def findDecl (target : Exe) (name : String) : Option Decl :=
  match target.availableInputs.find? (fun d => d.name = name) with
  | some d => some d
  | none =>
    let nmparts := name.splitOn "."
    match nmparts.findIdx? (fun t => t = "runtime") with
    | some i =>
      if i + 1 < nmparts.length then
        target.availableInputs.find?
          (fun d => d.name = String.intercalate "." (nmparts.take i ++ ["_runtime"]))
      else none
    | none => none

/-- Embeds one iteration of the CLI-input loop of `runner_input` (CLI.py
lines 1194-1232): parse the token, resolve its declaration, coerce the
value, and insert it into the environment. A duplicate binding whose name
is still JSON-sourced is replaced (and the name leaves the JSON-origin
set); otherwise the new value must be an array and is concatenated onto
the existing array, a non-array duplicate being an error. -/
def addCliInput (ctx : Ctx) (target : Exe) (st : WEnv × List String)
    (one_input : String) : Except Err (WEnv × List String) :=
  match parseNameValue one_input with
  | none => .error (.invalidNameValuePair one_input)
  | some (name, s_value) =>
    match findDecl target name with
    | none => .error (.noSuchInput target.name name)
    | some decl =>
      match runner_input_value ctx s_value decl.ty with
      | .error e => .error e
      | .ok v =>
        match envGet st.1 name with
        | some existing =>
          if st.2.contains name then
            .ok (envBind st.1 name v, st.2.filter (fun k => k ≠ name))
          else
            match v with
            | .array vit vitems =>
              match existing with
              | .array eit eitems =>
                if ctx.coerces (WValue.typeOf (.array vit vitems)) existing.typeOf then
                  .ok (envUpdate st.1 name (.array eit (eitems ++ vitems)), st.2)
                else .error .assertionError
              | _ => .error .assertionError
            | _ => .error (.nonArrayDuplicated name)
        | none => .ok (envBind st.1 name v, st.2.filter (fun k => k ≠ name))

/-- The names of required inputs that remain unbound
(`target.required_inputs.subtract(input_env)` as a key list). -/
def missingRequired (target : Exe) (input_env : WEnv) : List String :=
  (target.requiredInputs.filter (fun d => (envGet input_env d.name).isNone)).map (fun d => d.name)

/-- Embeds `runner_input` (CLI.py lines 1118-1249) up to the
missing-required check: resolve the target, seed the environment from the
JSON source, apply `--empty` and `--none`, reassemble and process the CLI
tokens. The JSON source parsing itself (`runner_input_json_file`, which
delegates to the external YAML parser and `values_from_json`) is external;
its resulting environment enters here as `jsonEnv`, and the JSON-origin key
set is seeded from it exactly as at CLI.py line 1148. -/
def runner_input_env (ctx : Ctx) (doc : WDoc) (inputs : List String)
    (jsonEnv : WEnv) (emptyNames : List String) (noneNames : List String)
    (task : Option String) : Except Err (Exe × WEnv × List String) := do
  let target ← runner_exe doc task
  let json_keys := jsonEnv.map (fun p => p.1)
  let env1 ← applyEmpty target jsonEnv emptyNames
  let env2 ← applyNone target env1 noneNames
  let toks := mergeEqTokens inputs
  let (env3, jk3) ← toks.foldlM (addCliInput ctx target) (env2, json_keys)
  return (target, env3, jk3)

/-- Embeds `runner_input` including the final missing-required check
(CLI.py lines 1234-1241): with `check_required`, any required input left
unbound is reported in a single aggregated error listing all missing
names. -/
def runner_input (ctx : Ctx) (doc : WDoc) (inputs : List String)
    (jsonEnv : WEnv) (emptyNames : List String) (noneNames : List String)
    (task : Option String) (check_required : Bool) :
    Except Err (Exe × WEnv) := do
  let (target, env, _) ← runner_input_env ctx doc inputs jsonEnv emptyNames noneNames task
  if check_required then
    let missing := missingRequired target env
    if !missing.isEmpty then
      throw (.missingRequired target.name missing)
  return (target, env)

/-- Modelled from the spec: the engine raises an arbitrarily deep chain of
wrapping failures. `runFailed` mirrors runtime.RunFailed with its
`run_dir` attribute and `__cause__` link; `commandFailed` mirrors
runtime.CommandFailed with its `exit_status` attribute; `pyNone` stands
for a Python None cause terminating the chain; `other` is any other
exception (the runtime error classes live outside src/). -/
inductive RunExn where
  | runFailed (runDir : Option String) (cause : RunExn)
  | commandFailed (exitStatus : Int)
  | pyNone
  | other
  deriving DecidableEq, Repr

/-- Embeds the `while isinstance(exn, runtime.RunFailed)` loop of `runner`
(CLI.py lines 992-998): peel RunFailed wrappers outermost to innermost,
keeping the first truthy run directory and the run directory of the layer
last peeled, and return the exception left when the loop exits. -/
def runfail_walk : RunExn → Option String → Option String →
    Option String × Option String × RunExn
  | .runFailed rd c, rundir, _ => runfail_walk c (pyOr rundir rd) rd
  | e, rundir, fromdir => (rundir, fromdir, e)

/-- The outcome of the failure classification in `runner` (CLI.py lines
987-1021): the reported run directory, the reported originating run
directory, and the process exit status. -/
structure RunReport where
  dir : Option String
  from_dir : Option String
  exit_status : Int
  deriving DecidableEq, Repr

/-- Embeds the failure branch of `runner` (CLI.py lines 988-1022): walk
the cause chain, then report the run directory, a `from_dir` only when
present and different from the run directory, and an exit status taken
from a CommandFailed root cause when its recorded status is truthy,
otherwise 2. -/
def classify_run_failure (exn : RunExn) : RunReport :=
  let w := runfail_walk exn none none
  { dir := w.1
    from_dir :=
      match w.2.1 with
      | some f => if w.1 = some f then none else some f
      | none => none
    exit_status :=
      match w.2.2 with
      | .commandFailed v => if v = 0 then 2 else v
      | _ => 2 }

/-- The run directories attached to the RunFailed layers of a chain,
outermost first, absent ones skipped. -/
def chainRunDirs : RunExn → List String
  | .runFailed rd c => rd.toList ++ chainRunDirs c
  | _ => []

/-- The exception below the innermost RunFailed wrapper of a chain. -/
def rootCause : RunExn → RunExn
  | .runFailed _ c => rootCause c
  | e => e

/-- A lint finding as the outline loop destructures it (CLI.py line 457):
source position, finding-class identifier, message, suppressed flag, and
severity. Positions are abstracted to a single ordinal; a severity is its
ordinal value in the ordered severity enumeration, None when absent. -/
structure Finding where
  pos : Nat
  cls : String
  msg : String
  suppressed : Bool
  severity : Option Nat
  deriving DecidableEq, Repr

/-- Modelled from the spec: the ordered severity enumeration of the
external lint engine (WDL/Lint.py is outside src/). -/
inductive LintSeverity where
  | minor
  | moderate
  | major
  | critical

/-- Ordinal value of a severity level. -/
def LintSeverity.value : LintSeverity → Nat
  | .minor => 1
  | .moderate => 2
  | .major => 3
  | .critical => 4

/-- Insertion into a position-sorted finding list. -/
def insertByPos (f : Finding) : List Finding → List Finding
  | [] => [f]
  | g :: gs => if f.pos ≤ g.pos then f :: g :: gs else g :: insertByPos f gs

/-- Sorting findings by source position (`sorted(obj.lint, key=...)` at
CLI.py line 457). -/
def sortByPos : List Finding → List Finding
  | [] => []
  | f :: fs => insertByPos f (sortByPos fs)

/-- True when a finding is printed (CLI.py line 458): its class is not in
the suppression set, and it is unsuppressed unless show-all is on. -/
def findingShown (suppress : List String) (showAll : Bool) (f : Finding) : Bool :=
  !(suppress.contains f.cls) && (showAll || !f.suppressed)

/-- True when a printed finding flips the severity-exit flag (CLI.py lines
468-476): a threshold is configured, the finding has a severity at or
above it, and the finding is not suppressed. -/
def findingTriggers (threshold : Option Nat) (f : Finding) : Bool :=
  (match threshold, f.severity with
   | some t, some v => t ≤ v
   | _, _ => false) && !f.suppressed

/-- Embeds the finding-emission loop run before first descent (CLI.py
lines 446-480), threading the shown counter and the should-exit flag. -/
def emitFindings (suppress : List String) (showAll : Bool)
    (threshold : Option Nat) (lint : List Finding) (st : Nat × Bool) :
    Nat × Bool :=
  (sortByPos lint).foldl
    (fun st f =>
      if findingShown suppress showAll f then
        (st.1 + 1, st.2 || findingTriggers threshold f)
      else st)
    st

mutual
/-- A document node as the outline printer visits it: its own attached
lint findings and its child nodes in the fixed descent order of the
source (document: workflow, sorted tasks, imports; workflow: inputs,
body, outputs; and so on). The forest type makes the node/children
recursion mutual. -/
inductive ONode where
  | mk (lint : List Finding) (children : OForest)
/-- A list of sibling document nodes in visiting order. -/
inductive OForest where
  | nil
  | cons (hd : ONode) (tl : OForest)
end

mutual
/-- Embeds the recursive `outline` traversal (CLI.py lines 424-545) as far
as the exit decision observes it: each node emits its own findings before
first descending, then descends into its children in order. -/
def outlineWalk (suppress : List String) (showAll : Bool)
    (threshold : Option Nat) : ONode → Nat × Bool → Nat × Bool
  | .mk lint children, st =>
    outlineWalkF suppress showAll threshold children
      (emitFindings suppress showAll threshold lint st)
/-- Walks the siblings of a forest in order. -/
def outlineWalkF (suppress : List String) (showAll : Bool)
    (threshold : Option Nat) : OForest → Nat × Bool → Nat × Bool
  | .nil, st => st
  | .cons n rest, st =>
    outlineWalkF suppress showAll threshold rest
      (outlineWalk suppress showAll threshold n st)
end

/-- Embeds `_determine_exit_code` (CLI.py lines 397-421): 2 under strict
mode with any finding shown, else 2 when the severity flag was set, else
0. -/
def determine_exit_code (strict : Bool) (lint_count : Nat)
    (should_exit : Bool) : Nat :=
  if strict && lint_count > 0 then 2
  else if should_exit then 2
  else 0

/-- Embeds the exit-code path of `check` (CLI.py lines 338-395): fold the
outline over every loaded document with one shared shown counter and exit
flag, then decide the exit code. -/
def check_exit_code (strict : Bool) (suppress : List String)
    (showAll : Bool) (threshold : Option Nat) (docs : List ONode) : Nat :=
  let st := docs.foldl (fun st d => outlineWalk suppress showAll threshold d st) (0, false)
  determine_exit_code strict st.1 st.2

mutual
/-- All findings of a node tree in depth-first emission order. -/
def ONode.allFindings : ONode → List Finding
  | .mk lint children => lint ++ OForest.allFindings children
/-- All findings of a forest in depth-first emission order. -/
def OForest.allFindings : OForest → List Finding
  | .nil => []
  | .cons n rest => n.allFindings ++ OForest.allFindings rest
end

/-! Helper lemmas and concrete fixtures used by the claim theorems. -/

theorem envGet_envBind_self (env : WEnv) (name : String) (v : WValue) :
    envGet (envBind env name v) name = some v := by
  simp [envGet, envBind]

/-- True for the declared types handled specially by the `--empty` loop. -/
def isArrayOrString : WType → Bool
  | .array _ _ _ => true
  | .string _ => true
  | _ => false

/-- Filesystem stub whose queries all fail; input coercion that avoids the
filesystem never consults it. -/
def fs0 : FS :=
  { isfile := fun _ => false
    isdir := fun _ => false
    abspath := id
    expanduser := id
    walkFiles := fun _ => []
    islink := fun _ => false
    pathExists := fun _ => false
    readlink := fun _ => ""
    isabs := fun _ => false
    reallyWithin := fun _ _ => true }

/-- Context fixture with no downloadable predicate, a JSON reader that
always fails, a from-json that wraps, and a coercion check that always
succeeds. -/
def ctx0 : Ctx :=
  { fs := fs0
    downloadable := none
    root := "/"
    jsonLoads := fun _ => none
    fromJson := fun ty j => .ok (.compound ty j)
    coerces := fun _ _ => true }

def taskA : Exe := ⟨"alpha", [], []⟩
def taskB : Exe := ⟨"beta", [], []⟩
def wfMain : Exe := ⟨"main", [], []⟩
def docWF : WDoc := ⟨some wfMain, [taskA, taskB]⟩

/-- C2: target resolution, for every loaded document and optional explicit
task name, follows the strict priority order and is total: an explicit
(truthy) task name selects the task of exactly that name or fails with the
no-such-task error; otherwise a declared workflow is selected regardless of
how many tasks exist; otherwise a lone task is selected; otherwise more
than one task demands an explicit selection; otherwise the document is
empty. -/
theorem C2_target_resolution (doc : WDoc) (task_name : Option String) :
    (pyTruthy task_name = true →
      (∀ t, doc.tasks.find? (fun t' => task_name = some t'.name) = some t →
        runner_exe doc task_name = .ok t) ∧
      (doc.tasks.find? (fun t' => task_name = some t'.name) = none →
        runner_exe doc task_name = .error (.noSuchTask (task_name.getD "")))) ∧
    (pyTruthy task_name = false →
      (∀ w, doc.workflow = some w → runner_exe doc task_name = .ok w) ∧
      (doc.workflow = none →
        (∀ t, doc.tasks = [t] → runner_exe doc task_name = .ok t) ∧
        (1 < doc.tasks.length → runner_exe doc task_name = .error .multipleTasks) ∧
        (doc.tasks = [] → runner_exe doc task_name = .error .emptyDocument))) := by
  constructor
  · intro htr
    constructor
    · intro t hfind
      simp [runner_exe, htr, hfind]
    · intro hfind
      simp [runner_exe, htr, hfind]
  · intro hfl
    constructor
    · intro w hw
      simp [runner_exe, hfl, hw]
    · intro hw
      refine ⟨fun t ht => by simp [runner_exe, hfl, hw, ht], fun hlen => ?_, fun ht => by simp [runner_exe, hfl, hw, ht]⟩
      rcases hts : doc.tasks with _ | ⟨a, _ | ⟨b, l⟩⟩
      · rw [hts] at hlen; simp at hlen
      · rw [hts] at hlen; simp at hlen
      · simp [runner_exe, hfl, hw, hts]

/-- Witness for C2 at a concrete document with a workflow and two tasks. -/
theorem C2_target_resolution_witness :
    runner_exe docWF (some "beta") = .ok taskB ∧ runner_exe docWF none = .ok wfMain := by
  constructor
  · exact ((C2_target_resolution docWF (some "beta")).1 (by decide)).1 taskB (by rfl)
  · exact ((C2_target_resolution docWF none).2 (by decide)).1 wfMain rfl

def declOptFile : Decl := ⟨"f", .file true⟩
def declReqInt : Decl := ⟨"x", .int false⟩
def exeC7 : Exe := ⟨"tsk", [declOptFile, declReqInt], [declReqInt]⟩

/-- C7: for every declared parameter named by `--none`, a non-optional
declared type raises the Input error, and an optional one binds an
explicit null regardless of any prior default or earlier binding (the
environment is arbitrary and the binding replaces any existing one). -/
theorem C7_none_flag (target : Exe) (env : WEnv) (name : String) (decl : Decl)
    (hfind : target.availableInputs.find? (fun d => d.name = name) = some decl) :
    (decl.ty.optional = false →
      applyNoneStep target env name = .error (.noneNonOptional decl.ty decl.name)) ∧
    (decl.ty.optional = true →
      applyNoneStep target env name = .ok (envBind env name .null) ∧
      envGet (envBind env name .null) name = some .null) := by
  constructor
  · intro hopt
    simp [applyNoneStep, hfind, hopt]
  · intro hopt
    exact ⟨by simp [applyNoneStep, hfind, hopt], envGet_envBind_self env name .null⟩

/-- Witness for C7: an optional File input becomes null even over a prior
binding, a required Int input is rejected. -/
theorem C7_none_flag_witness :
    applyNoneStep exeC7 [("f", WValue.file "/tmp/a")] "f"
      = .ok [("f", WValue.null)] ∧
    envGet [("f", WValue.null)] "f" = some .null ∧
    applyNoneStep exeC7 [] "x" = .error (.noneNonOptional (.int false) "x") := by
  refine ⟨?_, ?_, ?_⟩
  · exact ((C7_none_flag exeC7 [("f", WValue.file "/tmp/a")] "f" declOptFile rfl).2 rfl).1
  · exact ((C7_none_flag exeC7 [("f", WValue.file "/tmp/a")] "f" declOptFile rfl).2 rfl).2
  · exact (C7_none_flag exeC7 [] "x" declReqInt rfl).1 rfl

/-- C6 (amended): for every declared parameter named by `--empty`, a
nonempty-constrained array type fails; an empty-allowed array binds a
zero-length array and a string binds the empty string; any other declared
type raises the hard Input error, whose message carries the hint toward
`--none` exactly when the declared type is optional (not always, as the
claim stated). -/
theorem C6_empty_flag (target : Exe) (env : WEnv) (name : String) (decl : Decl)
    (hfind : target.availableInputs.find? (fun d => d.name = name) = some decl) :
    (∀ it o, decl.ty = .array it o true →
      applyEmptyStep target env name
        = .error (.cannotEmptyNonempty (.array it o true) decl.name)) ∧
    (∀ it o, decl.ty = .array it o false →
      applyEmptyStep target env name = .ok (envBind env name (.array it [])) ∧
      envGet (envBind env name (.array it [])) name = some (.array it [])) ∧
    (∀ o, decl.ty = .string o →
      applyEmptyStep target env name = .ok (envBind env name (.str "")) ∧
      envGet (envBind env name (.str "")) name = some (.str "")) ∧
    (isArrayOrString decl.ty = false →
      applyEmptyStep target env name
        = .error (.cannotEmpty decl.ty decl.name decl.ty.optional)) := by
  refine ⟨?_, ?_, ?_, ?_⟩
  · intro it o hty
    simp [applyEmptyStep, hfind, hty]
  · intro it o hty
    exact ⟨by simp [applyEmptyStep, hfind, hty], envGet_envBind_self env name _⟩
  · intro o hty
    exact ⟨by simp [applyEmptyStep, hfind, hty], envGet_envBind_self env name _⟩
  · intro hother
    cases hty : decl.ty <;> rw [hty] at hother <;> simp [isArrayOrString] at hother <;>
      simp [applyEmptyStep, hfind, hty, WType.optional]

def exeC6 : Exe := ⟨"tsk", [⟨"n", .int false⟩], []⟩

/-- Counterexample for C6 as stated: `--empty` on a non-optional Int input
raises the hard error WITHOUT the hint toward `--none` (the hint flag is
false, and the hinted error is a different value), contradicting the claim
that the message always includes the hint. -/
theorem C6_empty_counterexample :
    applyEmptyStep exeC6 [] "n" = .error (.cannotEmpty (.int false) "n" false) ∧
    Err.cannotEmpty (.int false) "n" false ≠ Err.cannotEmpty (.int false) "n" true := by
  exact ⟨rfl, by decide⟩

/-- Witness for C6 at concrete inputs: a nonempty-array input is rejected,
an empty-allowed array and a string succeed with zero-length values. -/
theorem C6_empty_flag_witness :
    applyEmptyStep ⟨"t", [⟨"a", .array (.int false) false true⟩], []⟩ [] "a"
      = .error (.cannotEmptyNonempty (.array (.int false) false true) "a") ∧
    applyEmptyStep ⟨"t", [⟨"b", .array (.int false) false false⟩], []⟩ [] "b"
      = .ok [("b", WValue.array (.int false) [])] ∧
    applyEmptyStep ⟨"t", [⟨"s", .string false⟩], []⟩ [] "s"
      = .ok [("s", WValue.str "")] := by
  refine ⟨?_, ?_, ?_⟩
  · exact (C6_empty_flag ⟨"t", [⟨"a", .array (.int false) false true⟩], []⟩ [] "a" _ rfl).1
      (.int false) false rfl
  · exact ((C6_empty_flag ⟨"t", [⟨"b", .array (.int false) false false⟩], []⟩ [] "b" _ rfl).2.1
      (.int false) false rfl).1
  · exact ((C6_empty_flag ⟨"t", [⟨"s", .string false⟩], []⟩ [] "s" _ rfl).2.2.1 false rfl).1

/-- C5: after merging all input sources, when required parameters remain
unbound, the merger raises exactly one aggregated missing-required-inputs
error carrying the full list of missing names: the error payload is the
entire unbound-required list, and every unbound required parameter appears
in it. -/
theorem C5_missing_aggregated (ctx : Ctx) (doc : WDoc) (inputs : List String)
    (jsonEnv : WEnv) (emptyNames noneNames : List String) (task : Option String)
    (target : Exe) (env : WEnv) (jk : List String)
    (henv : runner_input_env ctx doc inputs jsonEnv emptyNames noneNames task
      = .ok (target, env, jk))
    (hmiss : missingRequired target env ≠ []) :
    runner_input ctx doc inputs jsonEnv emptyNames noneNames task true
      = .error (.missingRequired target.name (missingRequired target env)) ∧
    ∀ d ∈ target.requiredInputs, envGet env d.name = none →
      d.name ∈ missingRequired target env := by
  constructor
  · rw [runner_input, henv]
    simp only [bind, Except.bind]
    simp [hmiss]
  · intro d hd hget
    simp only [missingRequired, List.mem_map]
    exact ⟨d, List.mem_filter.mpr ⟨hd, by simp [hget]⟩, rfl⟩

def exeC5 : Exe :=
  ⟨"wf", [⟨"x", .int false⟩, ⟨"y", .string false⟩], [⟨"x", .int false⟩, ⟨"y", .string false⟩]⟩
def docC5 : WDoc := ⟨some exeC5, []⟩

/-- Witness for C5: with no inputs supplied, both required names x and y
appear together in the single aggregated error. -/
theorem C5_missing_aggregated_witness :
    runner_input ctx0 docC5 [] [] [] [] none true
      = .error (.missingRequired "wf" ["x", "y"]) ∧
    "x" ∈ missingRequired exeC5 [] ∧ "y" ∈ missingRequired exeC5 [] := by
  have h := C5_missing_aggregated ctx0 docC5 [] [] [] [] none exeC5 [] [] rfl (by decide)
  exact ⟨h.1, h.2 ⟨"x", .int false⟩ (by simp [exeC5]) rfl,
    h.2 ⟨"y", .string false⟩ (by simp [exeC5]) rfl⟩

/-- C4: for every candidate input path, a downloadable URI is accepted
unchanged with no local filesystem interaction (the result holds for every
filesystem and root); a walked directory input containing a file symlink
that is broken, absolute-target, or escaping the directory subtree is
rejected with the Input error; and a local path that is not contained
within the configured root is rejected. -/
theorem C4_path_validation :
    (∀ (fs : FS) (root path : String) (directory : Bool) (d : String → Bool → Bool),
      d path directory = true →
      validate_input_path fs path directory (some d) root = .ok path) ∧
    (∀ (fs : FS) (root path : String) (dl : Option (String → Bool → Bool)),
      (match dl with | some d => d path true | none => false) = false →
      fs.isdir path = true →
      fs.reallyWithin (fs.abspath path) root = true →
      ∀ fn ∈ fs.walkFiles (fs.abspath path),
        fs.islink fn = true →
        (fs.pathExists fn = false ∨ fs.isabs (fs.readlink fn) = true ∨
          fs.reallyWithin fn (fs.abspath path) = false) →
        validate_input_path fs path true dl root
          = .error (.unusableSymlink (fs.abspath path))) ∧
    (∀ (fs : FS) (root path : String) (directory : Bool)
      (dl : Option (String → Bool → Bool)),
      (match dl with | some d => d path directory | none => false) = false →
      ((directory && fs.isdir path) || (!directory && fs.isfile path)) = true →
      fs.reallyWithin (fs.abspath path) root = false →
      validate_input_path fs path directory dl root
        = .error (.outsideRoot root (fs.abspath path))) := by
  refine ⟨?_, ?_, ?_⟩
  · intro fs root path directory d hd
    simp [validate_input_path, hd]
  · intro fs root path dl hdl hdir hwithin fn hfn hlink hbad
    have hany : (fs.walkFiles (fs.abspath path)).any (fun fn =>
        fs.islink fn && (!fs.pathExists fn || fs.isabs (fs.readlink fn) ||
          !(fs.reallyWithin fn (fs.abspath path)))) = true := by
      rw [List.any_eq_true]
      refine ⟨fn, hfn, ?_⟩
      rcases hbad with hb | hb | hb <;> simp [hlink, hb]
    simp [validate_input_path, hdl, hdir, hwithin, hany]
  · intro fs root path directory dl hdl hexist hout
    simp [validate_input_path, hdl, hexist, hout]

/-- Filesystem fixture for the C4 witness: one directory containing one
broken symlink, with containment defined by a root marker. -/
def fsC4 : FS :=
  { isfile := fun _ => false
    isdir := fun p => p = "/data/in"
    abspath := id
    expanduser := id
    walkFiles := fun p => if p = "/data/in" then ["/data/in/bad"] else []
    islink := fun f => f = "/data/in/bad"
    pathExists := fun _ => false
    readlink := fun _ => ""
    isabs := fun _ => false
    reallyWithin := fun _ r => r = "/data" }

/-- Witness for C4: a downloadable URI passes untouched, the broken
symlink inside the directory input is rejected, and a directory outside
the configured root is rejected. -/
theorem C4_path_validation_witness :
    validate_input_path fsC4 "https://bucket/x" false
      (some (fun u _ => u = "https://bucket/x")) "/data" = .ok "https://bucket/x" ∧
    validate_input_path fsC4 "/data/in" true none "/data"
      = .error (.unusableSymlink "/data/in") ∧
    validate_input_path fsC4 "/data/in" true none "/elsewhere"
      = .error (.outsideRoot "/elsewhere" "/data/in") := by
  refine ⟨?_, ?_, ?_⟩
  · exact C4_path_validation.1 fsC4 "/data" "https://bucket/x" false _ (by decide)
  · exact C4_path_validation.2.1 fsC4 "/data" "/data/in" none rfl rfl (by decide)
      "/data/in/bad" (by decide) rfl (Or.inl rfl)
  · exact C4_path_validation.2.2 fsC4 "/elsewhere" "/data/in" true none rfl (by decide) (by decide)

/-- C8 (amended): a command-line value for an Int or Float input yields the
parsed numeric value on numeric text, but on non-numeric text the builtins
raise an uncaught ValueError, which is NOT an Input error; boolean
failures and malformed compound JSON do raise Input errors naming the
offending value or type, as the claim describes for those cases. -/
theorem C8_numeric_coercion (ctx : Ctx) (s : String) :
    (∀ n opt, pyInt? s = some n →
      runner_input_value ctx s (.int opt) = .ok (.int n)) ∧
    (∀ opt, pyInt? s = none →
      runner_input_value ctx s (.int opt) = .error (.valueError s) ∧
      Err.isInputError (.valueError s) = false) ∧
    (∀ f opt, pyFloat? s = some f →
      runner_input_value ctx s (.float opt) = .ok (.float f)) ∧
    (∀ opt, pyFloat? s = none →
      runner_input_value ctx s (.float opt) = .error (.valueError s)) ∧
    (∀ opt, s ≠ "true" → s ≠ "false" →
      runner_input_value ctx s (.boolean opt) = .error (.booleanExpected s) ∧
      Err.isInputError (.booleanExpected s) = true) ∧
    (∀ opt, ctx.jsonLoads s = none →
      runner_input_value ctx s (.pair opt) = .error (.invalidJson (.pair opt)) ∧
      Err.isInputError (.invalidJson (.pair opt)) = true) := by
  refine ⟨?_, ?_, ?_, ?_, ?_, ?_⟩
  · intro n opt h
    simp [runner_input_value, h]
  · intro opt h
    exact ⟨by simp [runner_input_value, h], rfl⟩
  · intro f opt h
    simp [runner_input_value, h]
  · intro opt h
    simp [runner_input_value, h]
  · intro opt h1 h2
    exact ⟨by simp [runner_input_value, h1, h2], rfl⟩
  · intro opt h
    exact ⟨by simp [runner_input_value, h], rfl⟩

/-- Counterexample for C8 as stated: the non-numeric text abc supplied for
an Int input produces the ValueError escape, which is not an Input error,
contradicting the claim that the coercer fails with an Input error naming
the offending type. -/
theorem C8_numeric_counterexample :
    runner_input_value ctx0 "abc" (.int false) = .error (.valueError "abc") ∧
    Err.isInputError (.valueError "abc") = false := by
  exact ⟨rfl, rfl⟩

/-- Witness for C8: the numeric parses succeed concretely and the failure
modes come out as stated in the amended claim. -/
theorem C8_numeric_coercion_witness :
    runner_input_value ctx0 "42" (.int false) = .ok (.int 42) ∧
    runner_input_value ctx0 "2.5" (.float false)
      = .ok (.float (.finite 25 (-1))) ∧
    runner_input_value ctx0 "maybe" (.boolean false)
      = .error (.booleanExpected "maybe") ∧
    runner_input_value ctx0 "nonsense" (.pair false)
      = .error (.invalidJson (.pair false)) := by
  refine ⟨?_, ?_, ?_, ?_⟩
  · exact (C8_numeric_coercion ctx0 "42").1 42 false (by decide)
  · exact (C8_numeric_coercion ctx0 "2.5").2.2.1 (.finite 25 (-1)) false (by decide)
  · exact ((C8_numeric_coercion ctx0 "maybe").2.2.2.2.1 false (by decide) (by decide)).1
  · exact ((C8_numeric_coercion ctx0 "nonsense").2.2.2.2.2 false rfl).1

/-- C1: when a CLI name=value token resolves to a name that already has a
binding, the outcome depends on the binding origin: a name still in the
JSON-origin set is replaced by the coerced CLI value (CLI wins over JSON);
a name not in the JSON-origin set requires the new coerced value to be an
array, which is concatenated onto the existing array in left-to-right
command-line order (new items appended after the existing ones), and a
non-array duplicate raises the Input error. -/
theorem C1_duplicate_semantics (ctx : Ctx) (target : Exe) (env : WEnv)
    (jk : List String) (tok name s_value : String) (decl : Decl) (v ex : WValue)
    (hparse : parseNameValue tok = some (name, s_value))
    (hdecl : findDecl target name = some decl)
    (hval : runner_input_value ctx s_value decl.ty = .ok v)
    (hex : envGet env name = some ex) :
    (jk.contains name = true →
      addCliInput ctx target (env, jk) tok
        = .ok (envBind env name v, jk.filter (fun k => k ≠ name))) ∧
    (jk.contains name = false →
      (∀ vit vitems, v = .array vit vitems →
        ∀ eit eitems, ex = .array eit eitems →
        ctx.coerces (WValue.typeOf (.array vit vitems)) (WValue.typeOf (.array eit eitems)) = true →
        addCliInput ctx target (env, jk) tok
          = .ok (envUpdate env name (.array eit (eitems ++ vitems)), jk)) ∧
      ((∀ vit vitems, v ≠ .array vit vitems) →
        addCliInput ctx target (env, jk) tok
          = .error (.nonArrayDuplicated name))) := by
  constructor
  · intro hjk
    have hmem : name ∈ jk := by simpa using hjk
    simp [addCliInput, hparse, hdecl, hval, hex, hmem]
  · intro hjk
    have hnot : ¬ name ∈ jk := by simpa using hjk
    constructor
    · intro vit vitems hv eit eitems hexv hco
      subst hv; subst hexv
      simp [addCliInput, hparse, hdecl, hval, hex, hnot, hco]
    · intro hv
      cases v with
      | array vit vitems => exact absurd rfl (hv vit vitems)
      | str s => simp [addCliInput, hparse, hdecl, hval, hex, hnot]
      | int n => simp [addCliInput, hparse, hdecl, hval, hex, hnot]
      | float f => simp [addCliInput, hparse, hdecl, hval, hex, hnot]
      | boolean b => simp [addCliInput, hparse, hdecl, hval, hex, hnot]
      | file p => simp [addCliInput, hparse, hdecl, hval, hex, hnot]
      | dir p => simp [addCliInput, hparse, hdecl, hval, hex, hnot]
      | null => simp [addCliInput, hparse, hdecl, hval, hex, hnot]
      | compound ty j => simp [addCliInput, hparse, hdecl, hval, hex, hnot]

def exeC1 : Exe :=
  ⟨"wf", [⟨"x", .int false⟩, ⟨"a", .array (.int false) false false⟩],
    [⟨"x", .int false⟩]⟩

/-- Witness for C1: a JSON-sourced x is replaced by the CLI value; a
non-JSON array binding is concatenated in command-line order; a non-JSON
scalar duplicate is an error. -/
theorem C1_duplicate_semantics_witness :
    addCliInput ctx0 exeC1 ([("x", WValue.int 1)], ["x"]) "x=2"
      = .ok ([("x", WValue.int 2)], []) ∧
    addCliInput ctx0 exeC1 ([("a", WValue.array (.int false) [.int 1])], []) "a=2"
      = .ok ([("a", WValue.array (.int false) [.int 1, .int 2])], []) ∧
    addCliInput ctx0 exeC1 ([("x", WValue.int 1)], []) "x=2"
      = .error (.nonArrayDuplicated "x") := by
  refine ⟨?_, ?_, ?_⟩
  · exact (C1_duplicate_semantics ctx0 exeC1 [("x", WValue.int 1)] ["x"] "x=2" "x" "2"
      ⟨"x", .int false⟩ (.int 2) (.int 1) rfl rfl rfl rfl).1 rfl
  · exact ((C1_duplicate_semantics ctx0 exeC1 [("a", WValue.array (.int false) [.int 1])] []
      "a=2" "a" "2" ⟨"a", .array (.int false) false false⟩
      (.array (.int false) [.int 2]) (.array (.int false) [.int 1])
      rfl rfl rfl rfl).2 rfl).1 (.int false) [.int 2] rfl (.int false) [.int 1] rfl rfl
  · exact ((C1_duplicate_semantics ctx0 exeC1 [("x", WValue.int 1)] [] "x=2" "x" "2"
      ⟨"x", .int false⟩ (.int 2) (.int 1) rfl rfl rfl rfl).2 rfl).2
      (fun vit vitems h => by cases h)

/-- Behavior of a CLI token hitting an existing non-JSON binding: split
out of the C10 statement for reuse inside its proof. -/
theorem C10_second_token (ctx : Ctx) (target : Exe) (env : WEnv)
    (jk : List String) (tok name s_value : String) (decl : Decl) (v ex : WValue)
    (hparse : parseNameValue tok = some (name, s_value))
    (hdecl : findDecl target name = some decl)
    (hval : runner_input_value ctx s_value decl.ty = .ok v)
    (hex : envGet env name = some ex)
    (hjk : jk.contains name = false) :
    (∀ vit vitems, v = .array vit vitems →
      ∀ eit eitems, ex = .array eit eitems →
      ctx.coerces (WValue.typeOf (.array vit vitems)) (WValue.typeOf (.array eit eitems)) = true →
      addCliInput ctx target (env, jk) tok
        = .ok (envUpdate env name (.array eit (eitems ++ vitems)), jk)) ∧
    ((∀ vit vitems, v ≠ .array vit vitems) →
      addCliInput ctx target (env, jk) tok
        = .error (.nonArrayDuplicated name)) := by
  have hnot : ¬ name ∈ jk := by simpa using hjk
  constructor
  · intro vit vitems hv eit eitems hexv hco
    subst hv; subst hexv
    simp [addCliInput, hparse, hdecl, hval, hex, hnot, hco]
  · intro hv
    cases v with
    | array vit vitems => exact absurd rfl (hv vit vitems)
    | str s => simp [addCliInput, hparse, hdecl, hval, hex, hnot]
    | int n => simp [addCliInput, hparse, hdecl, hval, hex, hnot]
    | float f => simp [addCliInput, hparse, hdecl, hval, hex, hnot]
    | boolean b => simp [addCliInput, hparse, hdecl, hval, hex, hnot]
    | file p => simp [addCliInput, hparse, hdecl, hval, hex, hnot]
    | dir p => simp [addCliInput, hparse, hdecl, hval, hex, hnot]
    | null => simp [addCliInput, hparse, hdecl, hval, hex, hnot]
    | compound ty j => simp [addCliInput, hparse, hdecl, hval, hex, hnot]

/-- C10: the JSON-origin exemption is consumed on first use. A CLI token
that replaces a JSON-sourced binding removes the name from the JSON-origin
set, so a subsequent CLI token for the same name is treated as a non-JSON
duplicate: concatenated when its coerced value is an array, rejected as a
duplicate otherwise — never replacing again. -/
theorem C10_json_exemption_consumed (ctx : Ctx) (target : Exe) (env : WEnv)
    (jk : List String) (tok1 name s1 : String) (decl : Decl) (v1 ex : WValue)
    (hparse1 : parseNameValue tok1 = some (name, s1))
    (hdecl : findDecl target name = some decl)
    (hval1 : runner_input_value ctx s1 decl.ty = .ok v1)
    (hex : envGet env name = some ex)
    (hjk : jk.contains name = true) :
    addCliInput ctx target (env, jk) tok1
      = .ok (envBind env name v1, jk.filter (fun k => k ≠ name)) ∧
    (jk.filter (fun k => k ≠ name)).contains name = false ∧
    (∀ tok2 s2 v2, parseNameValue tok2 = some (name, s2) →
      runner_input_value ctx s2 decl.ty = .ok v2 →
      (∀ vit vitems, v2 = .array vit vitems →
        ∀ eit eitems, v1 = .array eit eitems →
        ctx.coerces (WValue.typeOf (.array vit vitems)) (WValue.typeOf (.array eit eitems)) = true →
        addCliInput ctx target
            (envBind env name v1, jk.filter (fun k => k ≠ name)) tok2
          = .ok (envUpdate (envBind env name v1) name (.array eit (eitems ++ vitems)),
              jk.filter (fun k => k ≠ name))) ∧
      ((∀ vit vitems, v2 ≠ .array vit vitems) →
        addCliInput ctx target
            (envBind env name v1, jk.filter (fun k => k ≠ name)) tok2
          = .error (.nonArrayDuplicated name))) := by
  have hjk2 : (jk.filter (fun k => k ≠ name)).contains name = false := by
    simp
  refine ⟨?_, hjk2, ?_⟩
  · have hmem : name ∈ jk := by simpa using hjk
    simp [addCliInput, hparse1, hdecl, hval1, hex, hmem]
  · intro tok2 s2 v2 hparse2 hval2
    have hget1 : envGet (envBind env name v1) name = some v1 :=
      envGet_envBind_self env name v1
    exact (C10_second_token ctx target _ _ tok2 name s2 decl v2 v1
      hparse2 hdecl hval2 hget1 hjk2)

def exeC10 : Exe := ⟨"wf", [⟨"x", .int false⟩, ⟨"a", .array (.int false) false false⟩], []⟩

/-- Witness for C10: after a CLI token replaces the JSON-sourced x, a
second x token is rejected as a non-array duplicate instead of replacing
again; for an array-typed name the second token concatenates. -/
theorem C10_json_exemption_consumed_witness :
    addCliInput ctx0 exeC10 ([("x", WValue.int 1)], ["x"]) "x=2"
      = .ok ([("x", WValue.int 2)], []) ∧
    addCliInput ctx0 exeC10 ([("x", WValue.int 2)], []) "x=3"
      = .error (.nonArrayDuplicated "x") ∧
    addCliInput ctx0 exeC10 ([("a", WValue.array (.int false) [.int 7])], ["a"]) "a=8"
      = .ok ([("a", WValue.array (.int false) [.int 8])], []) ∧
    addCliInput ctx0 exeC10 ([("a", WValue.array (.int false) [.int 8])], []) "a=9"
      = .ok ([("a", WValue.array (.int false) [.int 8, .int 9])], []) := by
  have h1 := C10_json_exemption_consumed ctx0 exeC10 [("x", WValue.int 1)] ["x"]
    "x=2" "x" "2" ⟨"x", .int false⟩ (.int 2) (.int 1) rfl rfl rfl rfl rfl
  have h2 := C10_json_exemption_consumed ctx0 exeC10
    [("a", WValue.array (.int false) [.int 7])] ["a"]
    "a=8" "a" "8" ⟨"a", .array (.int false) false false⟩
    (.array (.int false) [.int 8]) (.array (.int false) [.int 7]) rfl rfl rfl rfl rfl
  refine ⟨h1.1, ?_, h2.1, ?_⟩
  · exact ((h1.2.2 "x=3" "3" (.int 3) rfl rfl).2 (fun vit vitems h => by cases h))
  · exact ((h2.2.2 "a=9" "9" (.array (.int false) [.int 9]) rfl rfl).1
      (.int false) [.int 9] rfl (.int false) [.int 8] rfl rfl)

theorem runfail_walk_dir : ∀ (exn : RunExn) (acc fd : Option String),
    (runfail_walk exn acc fd).1 = pyOr acc (chainRunDirs exn).head?
  | .runFailed rd c, acc, fd => by
    rw [runfail_walk, runfail_walk_dir c (pyOr acc rd) rd]
    cases acc <;> cases rd <;> simp [pyOr, chainRunDirs]
  | .commandFailed v, acc, fd => by
    cases acc <;> simp [runfail_walk, chainRunDirs, pyOr]
  | .pyNone, acc, fd => by
    cases acc <;> simp [runfail_walk, chainRunDirs, pyOr]
  | .other, acc, fd => by
    cases acc <;> simp [runfail_walk, chainRunDirs, pyOr]

theorem runfail_walk_root : ∀ (exn : RunExn) (acc fd : Option String),
    (runfail_walk exn acc fd).2.2 = rootCause exn
  | .runFailed rd c, acc, fd => by
    rw [runfail_walk, runfail_walk_root c (pyOr acc rd) rd, rootCause]
  | .commandFailed v, acc, fd => rfl
  | .pyNone, acc, fd => rfl
  | .other, acc, fd => rfl

/-- C3 (amended): walking the cause chain outermost to innermost, the
reported run directory is the first directory seen (a deeper one used only
when shallower layers had none); a from-directory is reported only when it
differs from the final run directory; and the exit status comes from a
CommandFailed root cause only when its recorded status is nonzero —
otherwise (zero recorded status, or any other root cause) the exit status
is 2. -/
theorem C3_failure_classification :
    (∀ exn : RunExn,
      (classify_run_failure exn).dir = (chainRunDirs exn).head?) ∧
    (∀ (exn : RunExn) (f : String),
      (classify_run_failure exn).from_dir = some f →
      (classify_run_failure exn).dir ≠ some f) ∧
    (∀ (exn : RunExn) (v : Int), rootCause exn = .commandFailed v → v ≠ 0 →
      (classify_run_failure exn).exit_status = v) ∧
    (∀ exn : RunExn, rootCause exn = .commandFailed 0 →
      (classify_run_failure exn).exit_status = 2) ∧
    (∀ exn : RunExn, (∀ v, rootCause exn ≠ .commandFailed v) →
      (classify_run_failure exn).exit_status = 2) := by
  refine ⟨?_, ?_, ?_, ?_, ?_⟩
  · intro exn
    show (runfail_walk exn none none).1 = _
    rw [runfail_walk_dir exn none none]
    rfl
  · intro exn f hfrom
    simp only [classify_run_failure] at hfrom ⊢
    rcases hw : (runfail_walk exn none none).2.1 with _ | g
    · rw [hw] at hfrom
      simp at hfrom
    · rw [hw] at hfrom
      by_cases he : (runfail_walk exn none none).1 = some g
      · simp [he] at hfrom
      · simp only [if_neg he] at hfrom
        cases hfrom
        exact he
  · intro exn v hroot hv
    simp only [classify_run_failure, runfail_walk_root exn none none, hroot]
    simp [hv]
  · intro exn hroot
    simp [classify_run_failure, runfail_walk_root exn none none, hroot]
  · intro exn hroot
    simp only [classify_run_failure]
    rw [runfail_walk_root exn none none]
    cases hr : rootCause exn with
    | runFailed rd c => rfl
    | commandFailed v => exact absurd hr (hroot v)
    | pyNone => rfl
    | other => rfl

/-- Failure chain fixture: a three-level chain whose middle layer lacks a
run directory and whose root cause is a failed command with status 42. -/
def exnC3 : RunExn :=
  .runFailed (some "/runs/outer")
    (.runFailed none (.runFailed (some "/runs/inner") (.commandFailed 42)))

/-- Witness for C3 at the concrete chain: the outermost directory wins,
the reported from-directory differs from it, and the nonzero command exit
status is surfaced; a chain with an unclassified root cause exits 2. -/
theorem C3_failure_classification_witness :
    (classify_run_failure exnC3).dir = some "/runs/outer" ∧
    (classify_run_failure exnC3).from_dir = some "/runs/inner" ∧
    (classify_run_failure exnC3).dir ≠ some "/runs/inner" ∧
    (classify_run_failure exnC3).exit_status = 42 ∧
    (classify_run_failure (.runFailed (some "/runs/x") .other)).exit_status = 2 := by
  refine ⟨?_, rfl, ?_, ?_, ?_⟩
  · exact (C3_failure_classification.1 exnC3).trans rfl
  · exact C3_failure_classification.2.1 exnC3 "/runs/inner" rfl
  · exact C3_failure_classification.2.2.1 exnC3 42 rfl (by decide)
  · exact C3_failure_classification.2.2.2.2 (.runFailed (some "/runs/x") .other)
      (fun v h => by simp [rootCause] at h)

/-- Counterexample for C3 as stated: a chain whose root cause is a failed
command recording exit status 0 exits with status 2, not with the status
taken from the innermost cause, contradicting the claim that the exit
status comes from the innermost cause whenever it represents a failed
external command. -/
theorem C3_failure_counterexample :
    rootCause (.runFailed (some "/runs/a") (.commandFailed 0)) = .commandFailed 0 ∧
    (classify_run_failure (.runFailed (some "/runs/a") (.commandFailed 0))).exit_status = 2 ∧
    (2 : Int) ≠ 0 := by
  refine ⟨rfl, rfl, by decide⟩

/-- The combined emitted-and-triggering predicate accumulated into the
severity-exit flag. -/
def findingFlips (suppress : List String) (showAll : Bool)
    (threshold : Option Nat) (f : Finding) : Bool :=
  findingShown suppress showAll f && findingTriggers threshold f

theorem emitFold_eq (suppress : List String) (showAll : Bool)
    (threshold : Option Nat) (l : List Finding) (st : Nat × Bool) :
    l.foldl
      (fun st f =>
        if findingShown suppress showAll f then
          (st.1 + 1, st.2 || findingTriggers threshold f)
        else st)
      st
      = (st.1 + l.countP (findingShown suppress showAll),
         st.2 || l.any (findingFlips suppress showAll threshold)) := by
  induction l generalizing st with
  | nil => simp
  | cons f fs ih =>
    simp only [List.foldl_cons, List.countP_cons, List.any_cons]
    by_cases h : findingShown suppress showAll f = true
    · rw [if_pos h, ih]
      refine Prod.ext ?_ ?_
      · simp [h]
        omega
      · simp [findingFlips, h, Bool.or_assoc]
    · rw [if_neg h, ih]
      have hf : findingShown suppress showAll f = false := by
        revert h
        cases findingShown suppress showAll f <;> simp
      refine Prod.ext ?_ ?_
      · simp [hf]
      · simp [findingFlips, hf]

theorem countP_insertByPos (p : Finding → Bool) (f : Finding) (l : List Finding) :
    (insertByPos f l).countP p = l.countP p + (if p f then 1 else 0) := by
  induction l with
  | nil => simp [insertByPos, List.countP_cons]
  | cons g gs ih =>
    rw [insertByPos]
    by_cases h : f.pos ≤ g.pos
    · rw [if_pos h]
      simp only [List.countP_cons]
    · rw [if_neg h]
      simp only [List.countP_cons, ih]
      split_ifs <;> omega

theorem any_insertByPos (p : Finding → Bool) (f : Finding) (l : List Finding) :
    (insertByPos f l).any p = (p f || l.any p) := by
  induction l with
  | nil => simp [insertByPos]
  | cons g gs ih =>
    by_cases h : f.pos ≤ g.pos
    · simp [insertByPos, h]
    · simp only [insertByPos, if_neg h, List.any_cons, ih]
      cases p f <;> cases p g <;> simp

theorem countP_sortByPos (p : Finding → Bool) (l : List Finding) :
    (sortByPos l).countP p = l.countP p := by
  induction l with
  | nil => rfl
  | cons f fs ih =>
    rw [sortByPos, countP_insertByPos, ih, List.countP_cons]

theorem any_sortByPos (p : Finding → Bool) (l : List Finding) :
    (sortByPos l).any p = l.any p := by
  induction l with
  | nil => rfl
  | cons f fs ih =>
    rw [sortByPos, any_insertByPos, ih, List.any_cons]

theorem emitFindings_eq (suppress : List String) (showAll : Bool)
    (threshold : Option Nat) (lint : List Finding) (st : Nat × Bool) :
    emitFindings suppress showAll threshold lint st
      = (st.1 + lint.countP (findingShown suppress showAll),
         st.2 || lint.any (findingFlips suppress showAll threshold)) := by
  rw [emitFindings, emitFold_eq, countP_sortByPos, any_sortByPos]

mutual
theorem outlineWalk_eq (suppress : List String) (showAll : Bool)
    (threshold : Option Nat) :
    ∀ (n : ONode) (st : Nat × Bool),
    outlineWalk suppress showAll threshold n st
      = (st.1 + n.allFindings.countP (findingShown suppress showAll),
         st.2 || n.allFindings.any (findingFlips suppress showAll threshold))
  | .mk lint children, st => by
    rw [outlineWalk, emitFindings_eq,
      outlineWalkF_eq suppress showAll threshold children]
    simp [ONode.allFindings, Nat.add_assoc, Bool.or_assoc]
theorem outlineWalkF_eq (suppress : List String) (showAll : Bool)
    (threshold : Option Nat) :
    ∀ (ns : OForest) (st : Nat × Bool),
    outlineWalkF suppress showAll threshold ns st
      = (st.1 + ns.allFindings.countP (findingShown suppress showAll),
         st.2 || ns.allFindings.any (findingFlips suppress showAll threshold))
  | .nil, st => by
    simp [outlineWalkF, OForest.allFindings]
  | .cons n rest, st => by
    rw [outlineWalkF, outlineWalk_eq suppress showAll threshold n,
      outlineWalkF_eq suppress showAll threshold rest]
    simp [OForest.allFindings, Nat.add_assoc, Bool.or_assoc]
end

/-- All findings emitted across a list of documents. -/
def docsFindings (docs : List ONode) : List Finding :=
  (docs.map ONode.allFindings).flatten

theorem checkFold_eq (suppress : List String) (showAll : Bool)
    (threshold : Option Nat) (docs : List ONode) (st : Nat × Bool) :
    docs.foldl (fun st d => outlineWalk suppress showAll threshold d st) st
      = (st.1 + (docsFindings docs).countP (findingShown suppress showAll),
         st.2 || (docsFindings docs).any (findingFlips suppress showAll threshold)) := by
  induction docs generalizing st with
  | nil => simp [docsFindings]
  | cons d ds ih =>
    rw [List.foldl_cons, outlineWalk_eq, ih]
    simp [docsFindings, Nat.add_assoc, Bool.or_assoc]

def findingC9 : Finding :=
  ⟨1, "StringCoercion", "value will be coerced", true, some LintSeverity.moderate.value⟩

def docC9 : ONode := .mk [findingC9] .nil

/-- C9 (amended): the check exit code is nonzero exactly when strict mode
is on and at least one finding was shown, or an emitted, non-suppressed
finding met or exceeded the severity threshold; consequently a document
whose only lint finding is a suppressed MODERATE finding yields exit code
0 under threshold MAJOR and ALSO exit code 0 under threshold MODERATE
(suppressed findings never trigger the severity threshold — not exit code
2 as the claim stated). -/
theorem C9_check_exit (strict : Bool) (suppress : List String)
    (showAll : Bool) (threshold : Option Nat) (docs : List ONode) :
    (check_exit_code strict suppress showAll threshold docs ≠ 0 ↔
      ((strict = true ∧
          0 < (docsFindings docs).countP (findingShown suppress showAll)) ∨
        (docsFindings docs).any (findingFlips suppress showAll threshold) = true)) ∧
    check_exit_code false [] false (some LintSeverity.major.value) [docC9] = 0 ∧
    check_exit_code false [] false (some LintSeverity.moderate.value) [docC9] = 0 := by
  refine ⟨?_, ?_, ?_⟩
  · rw [check_exit_code, checkFold_eq]
    simp only [Nat.zero_add, determine_exit_code]
    by_cases hs : strict = true <;>
      by_cases hc : 0 < (docsFindings docs).countP (findingShown suppress showAll) <;>
      by_cases ha : (docsFindings docs).any (findingFlips suppress showAll threshold) = true <;>
      simp [hs, hc, ha]
  · rfl
  · rfl

/-- Counterexample for C9 as stated: under threshold MODERATE, the
document whose only finding is a suppressed MODERATE finding exits with
code 0, not 2 as the claim asserts. -/
theorem C9_check_exit_counterexample :
    check_exit_code false [] false (some LintSeverity.moderate.value) [docC9] = 0 ∧
    (0 : Nat) ≠ 2 := by
  exact ⟨rfl, by decide⟩

/-- Witness for C9: applying the characterization concretely, strict mode
with the finding shown (show-all) exits nonzero, and without strict mode
or an unsuppressed threshold finding the exit code is zero. -/
theorem C9_check_exit_witness :
    check_exit_code true [] true none [docC9] ≠ 0 ∧
    check_exit_code false [] false (some LintSeverity.major.value) [docC9] = 0 := by
  constructor
  · exact (C9_check_exit true [] true none [docC9]).1.mpr
      (Or.inl ⟨rfl, by decide⟩)
  · exact (C9_check_exit false [] false (some LintSeverity.major.value) [docC9]).2.2

end MiniwdlCLI
